import Mathlib

/-!
Shallow embedding of `src/crossfitgames/api/api_calls.py`: a scraper that
walks the CrossFit Games leaderboard API page by page across years and
divisions and flattens the responses into tables.

The HTTP layer is modelled as an oracle `fetch : String → Except String Page`
mapping a request URL to either a parsed response or a transport error.
Python exceptions are modelled with `Except Err`; a `try/except` block is a
`match` on the `Except` value.  Tables are lists of typed rows.
-/

namespace CrossfitGames

/-! ## Data model: one parsed API response

JSON key lookups in the source can raise `KeyError`; each key the code reads
is therefore an `Option` field, `none` meaning the key is absent. -/

/-- The `entrant` record nested in one leaderboard row. -/
structure Entrant where
  competitorId : Nat
  name : String
  height : String
  weight : String
  age : String
deriving DecidableEq, Repr

/-- One per-event score record inside a row's `scores` list. -/
structure ScoreRecord where
  rank : String
  scoreDisplay : String
deriving DecidableEq, Repr

/-- One element of `leaderboardRows`. -/
structure LeaderboardRow where
  entrant : Option Entrant
  overallScore : Option String
  overallRank : Option String
  scores : Option (List ScoreRecord)
deriving DecidableEq, Repr

/-- The `pagination` object of a response. -/
structure Pagination where
  totalPages : Nat
  totalCompetitors : Nat
deriving DecidableEq, Repr

/-- One parsed API response.  `competition` stands for the nested
`competition.competitionId` lookup. -/
structure Page where
  pagination : Option Pagination
  competition : Option Nat
  ordinals : Option (List Nat)
  leaderboardRows : Option (List LeaderboardRow)
deriving DecidableEq, Repr

/-- A dynamically typed Python argument: the source checks `isinstance(x, int)`
on its parameters, so the embedding passes arguments that are either an
integer or some non-integer value (represented by a string). -/
inductive PyVal where
  | int (n : Int)
  | str (s : String)
deriving DecidableEq, Repr

/-- The exceptions the source can raise. -/
inductive Err where
  | typeError (msg : String)
  | network (msg : String)
  | keyError (key : String)
  | indexError
  | nameError (n : String)
deriving DecidableEq, Repr

instance {ε α : Type} [DecidableEq ε] [DecidableEq α] : DecidableEq (Except ε α)
  | .ok a, .ok b =>
    if h : a = b then .isTrue (congrArg Except.ok h)
    else .isFalse (fun hc => h (Except.ok.inj hc))
  | .ok _, .error _ => .isFalse (fun hc => Except.noConfusion hc)
  | .error _, .ok _ => .isFalse (fun hc => Except.noConfusion hc)
  | .error a, .error b =>
    if h : a = b then .isTrue (congrArg Except.error h)
    else .isFalse (fun hc => h (Except.error.inj hc))

/-- `isinstance(x, int)`. -/
def isInstInt : PyVal → Bool
  | .int _ => true
  | .str _ => false

/-- Python's `int(...)` on a digit string, over the character list (the
value of a nonempty all-digit character run, `none` otherwise). -/
def digitsToNat? (cs : List Char) : Option Nat :=
  if cs.isEmpty then none
  else if cs.all Char.isDigit then
    some (cs.foldl (fun n c => n * 10 + (c.toNat - '0'.toNat)) 0)
  else none

/-- Python's `int(s)` for a string `s`. -/
def parseNat? (s : String) : Option Nat := digitsToNat? s.data

/-- The request URL built by `games_json_dump` (line 32 of the source). -/
def buildUrl (year division page : Int) : String :=
  s!"https://c3po.crossfit.com/api/leaderboards/v2/competitions/games/{year}/leaderboards?division={division}&sort=0&page={page}"

/-- `games_json_dump(year, division, page)`: validates that the three
parameters are integers (raising `TypeError` otherwise, in the order
year, division, page), then issues one GET on the interpolated URL.
A transport failure is re-raised (`Err.network`). -/
def games_json_dump (fetch : String → Except String Page)
    (year division page : PyVal) : Except Err Page :=
  match year with
  | .str _ => .error (.typeError "year should be an integer")
  | .int y =>
    match division with
    | .str _ => .error (.typeError "division should be an integer")
    | .int d =>
      match page with
      | .str _ => .error (.typeError "page should be an integer")
      | .int p => (fetch (buildUrl y d p)).mapError Err.network

/-- A Python dict/key lookup: `KeyError` when the key is absent. -/
def getKey {α : Type} (o : Option α) (k : String) : Except Err α :=
  match o with
  | some a => .ok a
  | none => .error (.keyError k)

/-- A Python list index: `IndexError` when out of range. -/
def getIdx {α : Type} (l : List α) (i : Nat) : Except Err α :=
  match l[i]? with
  | some a => .ok a
  | none => .error .indexError

/-- The metadata list returned by `games_info`:
`[competition_id, total_pages, total_competitors, total_events]`. -/
structure Info where
  competitionId : Nat
  totalPages : Nat
  totalCompetitors : Nat
  totalEvents : Nat
deriving DecidableEq, Repr

/-- `games_info(year, division)`: fetches page 1 and extracts the four
metadata fields, re-raising a `KeyError` when a required key is absent. -/
def games_info (fetch : String → Except String Page) (year division : Int) :
    Except Err Info := do
  let resp ← games_json_dump fetch (.int year) (.int division) (.int 1)
  let pg ← getKey resp.pagination "pagination"
  let cid ← getKey resp.competition "competitionId"
  let ords ← getKey resp.ordinals "ordinals"
  pure ⟨cid, pg.totalPages, pg.totalCompetitors, ords.length⟩

/-! ## Division expansion

The expression `[1] if division == 1 else [2] if division == 2 else [1, 2]`
appears verbatim at line 80 (`games_info_multiple`) and line 113
(`games_info_competitors`); `games_info_scores` writes the same choice as an
`if/elif/else` chain (lines 196-201).  Each occurrence is embedded
separately so that their agreement is a theorem, not a definition. -/

/-- Division expansion as written in `games_info_multiple` (line 80). -/
def divisionValueMultiple (division : Int) : List Int :=
  if division = 1 then [1] else if division = 2 then [2] else [1, 2]

/-- Division expansion as written in `games_info_competitors` (line 113). -/
def divisionValueCompetitors (division : Int) : List Int :=
  if division = 1 then [1] else if division = 2 then [2] else [1, 2]

/-- Division expansion as written in `games_info_scores` (lines 196-201). -/
def divisionValueScores (division : Int) : List Int :=
  if division = 1 then [1]
  else if division = 2 then [2]
  else [1, 2]

/-- `range(year_from, year_too + 1)`: the years walked by the multi-year
drivers, in ascending order. -/
def yearRange (yearFrom yearToo : Int) : List Int :=
  (List.range (yearToo + 1 - yearFrom).toNat).map (fun i => yearFrom + i)

/-! ## Metadata multi-year driver -/

/-- One row of the `games_info_multiple` table. -/
structure InfoRow where
  info : Info
  year : Int
  division : Int
deriving DecidableEq, Repr

/-- The inner division loop of `games_info_multiple` for one year.  The
`try` in the source (line 82) wraps this whole loop, so the first failing
division aborts the remaining divisions of that year; rows already
concatenated before the failure are kept. -/
def runDivs (fetch : String → Except String Page) (year : Int) :
    List Int → List InfoRow
  | [] => []
  | d :: rest =>
    match games_info fetch year d with
    | .ok i => ⟨i, year, d⟩ :: runDivs fetch year rest
    | .error _ => []

/-- `convert_object_columns_to_numeric` applied to the metadata table.
Modelled from the spec: numeric coercion of generically-typed columns,
leaving failing columns unchanged (the helper lives in
`crossfitgames.utils.transformation_functions`, which is not part of the
sources here).  Every column of this table is already numeric in the
embedding, so the coercion leaves the table unchanged. -/
def convert_object_columns_to_numeric_info (t : List InfoRow) : List InfoRow := t

/-- `games_info_multiple(year_from, year_too, division)`: walks the year
range; per year, attempts both expanded divisions inside one `try`, keeping
any rows appended before a failure and skipping to the next year on error. -/
def games_info_multiple (fetch : String → Except String Page)
    (yearFrom yearToo division : Int) : List InfoRow :=
  convert_object_columns_to_numeric_info
    ((yearRange yearFrom yearToo).flatMap
      (fun y => runDivs fetch y (divisionValueMultiple division)))

/-! ## Competitor aggregator -/

/-- Rows consumed from one page by `games_info_competitors` (line 123):
`range(50) if page < info_response[1] else range(info_response[2] % 50)`. -/
def competitorsOnPage (totalPages totalCompetitors page : Nat) : Nat :=
  if page < totalPages then 50 else totalCompetitors % 50

/-- `range(1, total_pages + 1)`: the 1-indexed pages walked per division. -/
def pageRange (totalPages : Nat) : List Nat :=
  (List.range totalPages).map (fun i => i + 1)

/-- Raw fields pulled from one leaderboard row before post-processing. -/
structure CompetitorRaw where
  entrant : Entrant
  overallScore : String
  overallRank : String
deriving DecidableEq, Repr

/-- One iteration of the inner index loop of `games_info_competitors`
(lines 125-131): `response['leaderboardRows'][idx]['entrant']` and the two
overall fields; any missing key or out-of-range index raises. -/
def extractCompetitor (resp : Page) (idx : Nat) : Except Err CompetitorRaw := do
  let rows ← getKey resp.leaderboardRows "leaderboardRows"
  let row ← getIdx rows idx
  let ent ← getKey row.entrant "entrant"
  let os ← getKey row.overallScore "overallScore"
  let orank ← getKey row.overallRank "overallRank"
  pure ⟨ent, os, orank⟩

/-- Runs `f` on indices `start, start+1, ...` (`n` of them), keeping results
until the first error: the per-page `try` catches an exception mid-loop, so
rows appended before the failure stay in the table. -/
def collectIdx {α : Type} (f : Nat → Except Err α) (start n : Nat) : List α :=
  match n with
  | 0 => []
  | Nat.succ m =>
    match f start with
    | .ok a => a :: collectIdx f (start + 1) m
    | .error _ => []

/-- One iteration of the page loop of `games_info_competitors`
(lines 120-134): fetch the page and extract `competitorsOnPage` rows; the
per-page `try/except ... continue` turns any failure into the rows gathered
so far on that page (none if the fetch itself failed). -/
def processPage (fetch : String → Except String Page) (year div : Int)
    (info : Info) (page : Nat) : List CompetitorRaw :=
  match games_json_dump fetch (.int year) (.int div) (.int page) with
  | .error _ => []
  | .ok resp =>
    collectIdx (extractCompetitor resp) 0
      (competitorsOnPage info.totalPages info.totalCompetitors page)

/-- One iteration of the division loop of `games_info_competitors`
(lines 115-137): `games_info`, then the page loop.  The division-level
`try/except ... continue` skips the division when `games_info` fails;
page-level failures are already absorbed by `processPage`. -/
def processDiv (fetch : String → Except String Page) (year div : Int) :
    List CompetitorRaw :=
  match games_info fetch year div with
  | .error _ => []
  | .ok info => (pageRange info.totalPages).flatMap (processPage fetch year div info)

/-! ## Competitor post-processing (lines 139-150)

`re.findall` digit-run extraction is embedded directly; the table library's
coercions (`astype('int')`, `convert_object_columns_to_numeric`) and the
unit converters (`inch_to_cm`, `lb_to_kg`, defined in
`crossfitgames.utils.transformation_functions`, not among the sources) are
modelled from the spec. -/

/-- Helper for `digitRuns`: scans the characters, accumulating the current
digit run (reversed) in `acc`. -/
def digitRunsAux : List Char → List Char → List String
  | [], acc => if acc.isEmpty then [] else [String.mk acc.reverse]
  | c :: cs, acc =>
    if c.isDigit then digitRunsAux cs (c :: acc)
    else if acc.isEmpty then digitRunsAux cs []
    else String.mk acc.reverse :: digitRunsAux cs []

/-- `re.findall(r'\d+', s)`: the maximal runs of consecutive digits in `s`,
in order. -/
def digitRuns (s : String) : List String :=
  digitRunsAux s.data []

/-- Modelled from the spec: the table library's integer coercion
(`astype('int')`) of a cell holding the digit-run list produced by the
tie-marker cleaning — the intended contract is "strip the trailing tie
marker, keep the digits, coerce to integer", so a single all-digit run
parses and anything else raises. -/
def astypeIntCell (runs : List String) : Except Err Nat :=
  match runs with
  | [r] =>
    match parseNat? r with
    | some n => .ok n
    | none => .error (.typeError "astype int")
  | _ => .error (.typeError "astype int")

/-- `astype('int')` on a plain string cell (the `age` column). -/
def astypeIntStr (s : String) : Except Err Nat :=
  match parseNat? s with
  | some n => .ok n
  | none => .error (.typeError "astype int")

/-- The leading digit run of a string, if any. -/
def leadingNat (s : String) : Option Nat :=
  digitsToNat? (s.data.takeWhile Char.isDigit)

/-- Modelled from the spec: `lb_to_kg` (from
`crossfitgames.utils.transformation_functions`) parses a leading numeric
value from a string that may carry non-numeric suffixes, returns null when
there is none, and multiplies by 0.4536.  The result is represented
exactly in ten-thousandths of a kilogram: `n` pounds give
`n · 4536 / 10000` kg, encoded as `n * 4536`. -/
def lb_to_kg (s : String) : Option Nat :=
  (leadingNat s).map (fun n => n * 4536)

/-- Modelled from the spec: `inch_to_cm` (same missing module) parses an
inches representation and multiplies by 2.54.  The result is represented
exactly in hundredths of a centimetre: `n` inches give `n · 254 / 100` cm,
encoded as `n * 254`. -/
def inch_to_cm (s : String) : Option Nat :=
  (leadingNat s).map (fun n => n * 254)

/-- `weightInKg` is computed from the digit-extracted weight (the spec
resolves the findall-list ambiguity to "take the first numeric run"). -/
def weightKgOfRuns (runs : List String) : Option Nat :=
  runs.head?.bind lb_to_kg

/-- One row of the final `games_info_competitors` table.  `heightInCm` is
in hundredths of a centimetre and `weightInKg` in ten-thousandths of a
kilogram (the converters' exact fixed-point encodings). -/
structure CompetitorRow where
  competitorId : Nat
  name : String
  age : Nat
  overallScore : String
  overallRank : Nat
  heightInCm : Option Nat
  weightInKg : Option Nat
deriving DecidableEq, Repr

/-- The post-processing block of `games_info_competitors` (lines 139-150),
per row: digit-run cleaning of `weight` and `overallRank`, integer coercion
of `overallRank` and `age`, and the two unit conversions.  It runs outside
any `try`, so a coercion failure propagates out of the function. -/
def postCompetitorRow (r : CompetitorRaw) : Except Err CompetitorRow := do
  let weightRuns := digitRuns r.entrant.weight
  let rankRuns := digitRuns r.overallRank
  let rank ← astypeIntCell rankRuns
  let age ← astypeIntStr r.entrant.age
  pure { competitorId := r.entrant.competitorId, name := r.entrant.name,
         age := age, overallScore := r.overallScore, overallRank := rank,
         heightInCm := inch_to_cm r.entrant.height,
         weightInKg := weightKgOfRuns weightRuns }

/-- `games_info_competitors(year, division)`: the division/page loops with
their catch-log-skip handlers, followed by the unguarded post-processing.
On a fully empty accumulated table the source's `df['weight']` lookup
raises `KeyError('weight')` (the empty frame has no columns). -/
def games_info_competitors (fetch : String → Except String Page)
    (year division : Int) : Except Err (List CompetitorRow) :=
  let raw := (divisionValueCompetitors division).flatMap (processDiv fetch year)
  if raw.isEmpty then .error (.keyError "weight")
  else raw.mapM postCompetitorRow

/-! ## Score aggregator -/

/-- `num_results` in `games_info_scores` (lines 221-224):
`total_results - (total_pages - 1) * 50` on the last page, else 50.
Computed in Python's unbounded integers, so it can be negative. -/
def scoresNumResults (totalPages totalCompetitors page : Nat) : Int :=
  if page = totalPages then
    (totalCompetitors : Int) - ((totalPages : Int) - 1) * 50
  else 50

/-- One row of the intermediate scores table: one per-event score record
tagged with competitorId, year and division. -/
structure ScoreRaw where
  rank : String
  scoreDisplay : String
  competitorId : Nat
  year : Int
  division : Int
deriving DecidableEq, Repr

/-- The body of the per-competitor loop of `games_info_scores`
(lines 228-233): the `scores` list of row `idx`, flattened into one
`ScoreRaw` per record, tagged with the `entrant.competitorId`. -/
def extractScoresIdx (resp : Page) (year div : Int) (idx : Nat) :
    Except Err (List ScoreRaw) := do
  let rows ← getKey resp.leaderboardRows "leaderboardRows"
  let row ← getIdx rows idx
  let scores ← getKey row.scores "scores"
  let ent ← getKey row.entrant "entrant"
  pure (scores.map (fun sc => ⟨sc.rank, sc.scoreDisplay, ent.competitorId, year, div⟩))

/-- The per-competitor loop iteration with its own `try/except ... continue`
(lines 226-236): a failing competitor contributes no rows and the loop
continues. -/
def scoresProcessIdx (resp : Page) (year div : Int) (idx : Nat) : List ScoreRaw :=
  match extractScoresIdx resp year div idx with
  | .ok l => l
  | .error _ => []

/-- The page loop body of `games_info_scores` (lines 215-236).  Unlike the
competitor aggregator, the page fetch is not inside a page-level `try`:
its failure propagates (to the top-level handler). -/
def scoresPage (fetch : String → Except String Page) (year div : Int)
    (info : Info) (page : Nat) : Except Err (List ScoreRaw) := do
  let resp ← games_json_dump fetch (.int year) (.int div) (.int page)
  pure ((List.range (scoresNumResults info.totalPages info.totalCompetitors page).toNat).flatMap
    (scoresProcessIdx resp year div))

/-- The per-division work of `games_info_scores` (lines 205-236):
`games_info`, then every page.  No division-level `try` either; any error
propagates to the top-level handler, which discards all rows. -/
def scoresDiv (fetch : String → Except String Page) (year div : Int) :
    Except Err (List ScoreRaw) := do
  let info ← games_info fetch year div
  let pages ← (pageRange info.totalPages).mapM (scoresPage fetch year div info)
  pure pages.flatten

/-- A table cell that is either already numeric or still a string, as left
behind by the rank recoding (`0` vs. the original rank string). -/
inductive Cell where
  | int (n : Int)
  | str (s : String)
deriving DecidableEq, Repr

/-- The rank sentinels recoded by lines 240-243. -/
def rankSentinels : List String := ["CUT", "WD", "DNF"]

/-- One row of the final `games_info_scores` table.  `scoreIsWeightInKg`
is in ten-thousandths of a kilogram (the converter's exact fixed-point
encoding). -/
structure ScoreRow where
  rank : Cell
  rankReason : Option String
  scoreDisplay : String
  competitorId : Nat
  year : Int
  division : Int
  scoreIsWeightInKg : Option Nat
deriving DecidableEq, Repr

/-- Lines 240-243 row-wise: rows whose rank is a sentinel get it copied
into `rankReason` and their rank set to the integer 0; other rows keep the
raw rank string and a null `rankReason`. -/
def recodeRank (r : ScoreRaw) : ScoreRow :=
  { rank := if r.rank ∈ rankSentinels then Cell.int 0 else Cell.str r.rank,
    rankReason := if r.rank ∈ rankSentinels then some r.rank else none,
    scoreDisplay := r.scoreDisplay, competitorId := r.competitorId,
    year := r.year, division := r.division, scoreIsWeightInKg := none }

/-- Whether a cell coerces to a number. -/
def cellNumeric : Cell → Bool
  | .int _ => true
  | .str s => (parseNat? s).isSome

/-- The numeric value of a coercible cell. -/
def cellForce : Cell → Int
  | .int n => n
  | .str s => ((parseNat? s).getD 0 : Int)

/-- Modelled from the spec: `convert_object_columns_to_numeric` on the
`rank` column — the whole column becomes numeric when every cell coerces,
and is left unchanged otherwise. -/
def coerceRankColumn (rows : List ScoreRow) : List ScoreRow :=
  if rows.all (fun r => cellNumeric r.rank) then
    rows.map (fun r => { r with rank := Cell.int (cellForce r.rank) })
  else rows

/-- The post-processing of `games_info_scores` (lines 238-245): rank
recoding, numeric coercion of the rank column, then
`scoreIsWeightInKg = lb_to_kg(scoreDisplay)`. -/
def postScores (raw : List ScoreRaw) : List ScoreRow :=
  ((coerceRankColumn (raw.map recodeRank)).map
    (fun r => { r with scoreIsWeightInKg := lb_to_kg r.scoreDisplay }))

/-- Everything inside the top-level `try` of `games_info_scores`
(lines 203-248): both divisions, every page, then post-processing.  On an
empty accumulated table the source's `df['rank']` lookup at line 240
raises `KeyError('rank')` (the empty frame has no columns). -/
def games_info_scores_body (fetch : String → Except String Page)
    (year division : Int) : Except Err (List ScoreRow) := do
  let raws ← (divisionValueScores division).mapM (scoresDiv fetch year)
  let raw := raws.flatten
  if raw.isEmpty then Except.error (Err.keyError "rank")
  else pure (postScores raw)

/-- `games_info_scores(year, division)`: the body under the top-level
`except Exception` (lines 250-252), which logs at critical severity and
returns an empty dataframe instead of propagating. -/
def games_info_scores (fetch : String → Except String Page)
    (year division : Int) : List ScoreRow :=
  match games_info_scores_body fetch year division with
  | .ok t => t
  | .error _ => []

/-! ## Multi-year scores driver -/

/-- `df_temp['year'] = year` (line 284): retags a row with the loop year. -/
def setYear (y : Int) (r : ScoreRow) : ScoreRow := { r with year := y }

/-- The body of one year iteration of `games_info_scores_multiple`
(lines 282-285): calls `games_info_scores` (which never raises — it
returns a table on every path), retags the year column, concatenates.
No step of this body can raise, hence the `.ok`. -/
def scoresYearBody (fetch : String → Except String Page) (d y : Int) :
    Except Err (List ScoreRow) :=
  Except.ok ((games_info_scores fetch y d).map (setYear y))

/-- The year loop of `games_info_scores_multiple` (lines 280-288).  Its
`except Exception` handler logs with an f-string that references the
undefined name `div` (line 287), so the handler itself would raise
`NameError('div')` — but it is only entered if the body raises. -/
def scoresMultipleLoop (fetch : String → Except String Page) (d : Int) :
    List Int → Except Err (List ScoreRow)
  | [] => .ok []
  | y :: ys =>
    match scoresYearBody fetch d y with
    | .ok rows => (scoresMultipleLoop fetch d ys).map (fun rest => rows ++ rest)
    | .error _ => .error (.nameError "div")

/-- `games_info_scores_multiple(year_from, year_too, division)`: integer
validation of the three parameters (lines 268-274), then the year loop. -/
def games_info_scores_multiple (fetch : String → Except String Page)
    (yearFrom yearToo division : PyVal) : Except Err (List ScoreRow) :=
  match yearFrom with
  | .str _ => .error (.typeError "year_from should be an integer")
  | .int yf =>
    match yearToo with
    | .str _ => .error (.typeError "year_too should be an integer")
    | .int yt =>
      match division with
      | .str _ => .error (.typeError "division should be an integer")
      | .int d => scoresMultipleLoop fetch d (yearRange yf yt)

/-! ## Concrete fixtures

Small concrete responses and fetchers used to evaluate the definitions on
explicit inputs. -/

/-- A placeholder row used only as the unreachable default of a total
function in proofs. -/
def junkCompetitorRow : CompetitorRow := ⟨0, "", 0, "", 0, none, none⟩

/-- A sample entrant. -/
def entrantA : Entrant := ⟨101, "Ann", "70", "205 lb", "30"⟩

/-- A second sample entrant. -/
def entrantB : Entrant := ⟨201, "Bob", "71", "190 lb", "28"⟩

/-- A fully populated leaderboard row (tied overall rank `"5T"`). -/
def rowFull : LeaderboardRow :=
  ⟨some entrantA, some "600", some "5T", some [⟨"1", "100 reps"⟩]⟩

/-- A row whose `scores` key is absent. -/
def rowNoScores : LeaderboardRow := ⟨some entrantA, some "600", some "1", none⟩

/-- A row with a single score record. -/
def rowOneScore : LeaderboardRow :=
  ⟨some entrantB, some "600", some "1", some [⟨"1", "100 reps"⟩]⟩

/-- A metadata-only page: one page, one competitor, two events. -/
def pageMeta : Page := ⟨some ⟨1, 1⟩, some 5, some [1, 2], some [rowOneScore]⟩

/-- A page whose single row lacks the `scores` key. -/
def pageNoScores : Page := ⟨some ⟨1, 1⟩, some 5, some [], some [rowNoScores]⟩

/-- A page missing the required `pagination` key. -/
def pageNoPagination : Page := ⟨none, some 5, some [], some []⟩

/-- A full 50-row page of a 2-page, 51-competitor division. -/
def pageC2 : Page := ⟨some ⟨2, 51⟩, some 7, some [], some (List.replicate 50 rowFull)⟩

/-- A full 50-row page of a 3-page, 110-competitor division. -/
def pageC3 : Page := ⟨some ⟨3, 110⟩, some 7, some [], some (List.replicate 50 rowFull)⟩

/-- The metadata of `pageC3`. -/
def infoC3 : Info := ⟨7, 3, 110, 0⟩

/-- A fetcher for which every request succeeds with `pageMeta`. -/
def fetchAllGood : String → Except String Page := fun _ => .ok pageMeta

/-- A fetcher for which every request succeeds with `pageNoScores`. -/
def fetchC1 : String → Except String Page := fun _ => .ok pageNoScores

/-- A fetcher that fails transiently on page 2 of division 1 of 2022 and
serves `pageC2` everywhere else. -/
def fetchC2 : String → Except String Page := fun u =>
  if u = buildUrl 2022 1 2 then .error "timeout" else .ok pageC2

/-- A fetcher that always serves `pageC3`. -/
def fetchC3 : String → Except String Page := fun _ => .ok pageC3

/-- A fetcher that fails for division 1 of 2020 and serves `pageMeta`
everywhere else. -/
def fetchC5 : String → Except String Page := fun u =>
  if u = buildUrl 2020 1 1 then .error "boom" else .ok pageMeta

/-- A fetcher whose 2021 response is missing the `pagination` key and whose
other responses are a one-competitor, one-score page. -/
def fetchC9 : String → Except String Page := fun u =>
  if u = buildUrl 2021 1 1 then .ok pageNoPagination
  else .ok ⟨some ⟨1, 1⟩, some 5, some [], some [rowOneScore]⟩

/-- The raw fields of `rowFull`. -/
def rawFull : CompetitorRaw := ⟨entrantA, "600", "5T"⟩

/-- The post-processed form of `rawFull`. -/
def rowFullPost : CompetitorRow := ⟨101, "Ann", 30, "600", 5, some (70 * 254), some (205 * 4536)⟩

/-- Whether a computation ended in a `TypeError` (the source's
`InvalidArgument` failure mode). -/
def isTypeError {α : Type} : Except Err α → Bool
  | .error (.typeError _) => true
  | _ => false

/-- A raw score row carrying the `CUT` sentinel. -/
def rawCut : ScoreRaw := ⟨"CUT", "no weight", 11, 2022, 1⟩

/-- A raw score row with a plain numeric rank. -/
def rawFive : ScoreRaw := ⟨"5", "205 lb", 12, 2022, 1⟩

/-! # Theorems -/

/-- Helper: a `collectIdx` run in which every attempted index succeeds,
with values `g`, is the map of `g` over the index range. -/
theorem collectIdx_eq_map {α : Type} (f : Nat → Except Err α) (g : Nat → α) :
    ∀ (n start : Nat), (∀ i, i < n → f (start + i) = .ok (g (start + i))) →
    collectIdx f start n = (List.range' start n).map g := by
  intro n
  induction n with
  | zero => intro start _; rfl
  | succ m ih =>
    intro start h
    have h0 := h 0 (Nat.succ_pos m)
    simp only [Nat.add_zero] at h0
    simp only [collectIdx, h0, List.range'_succ, List.map_cons]
    congr 1
    apply ih
    intro i hi
    have hx := h (i + 1) (by omega)
    rwa [show start + (i + 1) = start + 1 + i by omega] at hx

/-- Helper: a `collectIdx` run in which every attempted index succeeds has
exactly as many rows as indices. -/
theorem collectIdx_length {α : Type} (f : Nat → Except Err α) :
    ∀ (n start : Nat), (∀ i, i < n → (f (start + i)).isOk = true) →
    (collectIdx f start n).length = n := by
  intro n
  induction n with
  | zero => intro start _; rfl
  | succ m ih =>
    intro start h
    have h0 := h 0 (Nat.succ_pos m)
    simp only [Nat.add_zero] at h0
    cases hf : f start with
    | error e => rw [hf] at h0; simp [Except.isOk, Except.toBool] at h0
    | ok a =>
      simp only [collectIdx, hf, List.length_cons]
      rw [ih (start + 1) (fun i hi => by
        have hx := h (i + 1) (by omega)
        rwa [show start + (i + 1) = start + 1 + i by omega] at hx)]

/-- Helper: `mapM` over a list on which `f` succeeds pointwise with values
`g` succeeds with the mapped list. -/
theorem mapM_ok_of_forall {α β : Type} (f : α → Except Err β) (g : α → β) :
    ∀ l : List α, (∀ x ∈ l, f x = .ok (g x)) → l.mapM f = .ok (l.map g) := by
  intro l
  induction l with
  | nil => intro _; rfl
  | cons a t ih =>
    intro h
    rw [List.mapM_cons, h a (List.mem_cons_self a t),
      ih (fun x hx => h x (List.mem_cons_of_mem a hx))]
    rfl

/-- C10: `games_json_dump` fails with the `InvalidArgument` `TypeError`
exactly when one of year, division, page is not an integer; with three
integers — whatever their values — it performs the request on the
interpolated URL, and with a non-integer argument it never touches the
fetcher. -/
theorem games_json_dump_validation :
    ∀ (fetch fetch2 : String → Except String Page) (year division page : PyVal),
      (isTypeError (games_json_dump fetch year division page) = true ↔
        ¬(isInstInt year = true ∧ isInstInt division = true ∧ isInstInt page = true)) ∧
      (∀ y d p : Int, year = .int y → division = .int d → page = .int p →
        games_json_dump fetch year division page =
          (fetch (buildUrl y d p)).mapError Err.network) ∧
      (¬(isInstInt year = true ∧ isInstInt division = true ∧ isInstInt page = true) →
        games_json_dump fetch year division page =
          games_json_dump fetch2 year division page) := by
  intro fetch fetch2 year division page
  refine ⟨?_, ?_, ?_⟩
  · cases year <;> cases division <;> cases page <;>
      simp only [games_json_dump, isTypeError, isInstInt] <;> simp
    case int.int.int y d p =>
      cases hf : fetch (buildUrl y d p) <;> simp [Except.mapError, isTypeError]
  · intro y d p hy hd hp
    subst hy; subst hd; subst hp
    rfl
  · intro h
    cases year <;> cases division <;> cases page <;>
      simp [isInstInt] at h <;> rfl

/-- C10 witness: a string-valued year is rejected with a `TypeError`
independently of the fetcher, while out-of-range integer values
(division 7, page 0) pass validation and are interpolated into the URL. -/
theorem games_json_dump_validation_witness :
    (isTypeError (games_json_dump fetchAllGood (.str "x") (.int 1) (.int 1)) = true) ∧
    games_json_dump fetchAllGood (.int 2022) (.int 7) (.int 0) =
      (fetchAllGood (buildUrl 2022 7 0)).mapError Err.network :=
  ⟨(games_json_dump_validation fetchAllGood fetchAllGood (.str "x") (.int 1) (.int 1)).1.mpr
      (by decide),
   (games_json_dump_validation fetchAllGood fetchAllGood (.int 2022) (.int 7)
      (.int 0)).2.1 2022 7 0 rfl rfl rfl⟩

/-- C6: the three division-expansion sites agree on every input; the
expansion maps 1 to `[1]`, 2 to `[2]` and anything else to `[1, 2]`; and
under the sentinel 0 the metadata loop emits the division-1 row before the
division-2 row of the same year. -/
theorem division_expansion_uniform :
    (∀ d : Int, divisionValueMultiple d = divisionValueCompetitors d ∧
        divisionValueMultiple d = divisionValueScores d) ∧
    divisionValueMultiple 1 = [1] ∧ divisionValueMultiple 2 = [2] ∧
    (∀ d : Int, d ≠ 1 → d ≠ 2 → divisionValueMultiple d = [1, 2]) ∧
    (∀ (fetch : String → Except String Page) (y : Int) (i1 i2 : Info),
      games_info fetch y 1 = .ok i1 → games_info fetch y 2 = .ok i2 →
      runDivs fetch y (divisionValueMultiple 0) = [⟨i1, y, 1⟩, ⟨i2, y, 2⟩]) := by
  refine ⟨fun d => ⟨rfl, rfl⟩, rfl, rfl, fun d h1 h2 => ?_, fun fetch y i1 i2 h1 h2 => ?_⟩
  · simp [divisionValueMultiple, h1, h2]
  · have h0 : divisionValueMultiple 0 = [1, 2] := rfl
    rw [h0]
    simp [runDivs, h1, h2]

/-- C6 witness: with the sentinel division 0 and an always-succeeding
fetcher, the expansion is `[1, 2]` and the 2022 metadata rows come out with
division 1 first. -/
theorem division_expansion_uniform_witness :
    divisionValueMultiple 0 = [1, 2] ∧
    runDivs fetchAllGood 2022 (divisionValueMultiple 0) =
      [⟨⟨5, 1, 1, 2⟩, 2022, 1⟩, ⟨⟨5, 1, 1, 2⟩, 2022, 2⟩] :=
  ⟨division_expansion_uniform.2.2.2.1 0 (by decide) (by decide),
   division_expansion_uniform.2.2.2.2 fetchAllGood 2022 ⟨5, 1, 1, 2⟩ ⟨5, 1, 1, 2⟩ rfl rfl⟩

/-- C4 counterexample: the claimed equality of the two per-page row-count
computations fails — with totalPages = 2 and totalCompetitors = 100, the
scores walk consumes 50 rows on the last page while the competitor walk
consumes `100 mod 50 = 0`. -/
theorem scores_vs_competitors_rowcount_counterexample :
    ¬ (∀ tp tc page : Nat, 1 ≤ tp → 1 ≤ page → page ≤ tp →
        (scoresNumResults tp tc page).toNat = competitorsOnPage tp tc page) := by
  intro h
  exact absurd (h 2 100 2 (by decide) (by decide) (by decide)) (by decide)

/-- C4 amended: on pages actually walked (1 ≤ page ≤ totalPages), the two
row-count computations agree whenever totalPages is consistent with
totalCompetitors, i.e. `(totalPages − 1)·50 ≤ totalCompetitors <
totalPages·50`; when totalCompetitors is an exact positive multiple of 50
(so totalPages·50 = totalCompetitors), they differ on the last page
(50 versus 0). -/
theorem scores_vs_competitors_rowcount_amended :
    ∀ tp tc page : Nat, 1 ≤ tp → 1 ≤ page → page ≤ tp →
      (tp - 1) * 50 ≤ tc → tc < tp * 50 →
      (scoresNumResults tp tc page).toNat = competitorsOnPage tp tc page := by
  intro tp tc page h1 h2 h3 h4 h5
  unfold scoresNumResults competitorsOnPage
  by_cases hp : page = tp
  · subst hp
    rw [if_pos rfl, if_neg (lt_irrefl page)]
    omega
  · rw [if_neg hp, if_pos (lt_of_le_of_ne h3 hp)]
    rfl

/-- C4 amended witness: at totalPages = 3, totalCompetitors = 110, the two
computations agree on the last page (both 10 rows). -/
theorem scores_vs_competitors_rowcount_amended_witness :
    (scoresNumResults 3 110 3).toNat = competitorsOnPage 3 110 3 :=
  scores_vs_competitors_rowcount_amended 3 110 3 (by decide) (by decide) (by decide)
    (by decide) (by decide)

/-- C3: when a page fetch succeeds and every attempted row extraction on it
succeeds, the competitor aggregator consumes exactly 50 rows from a
non-last page and `totalCompetitors mod 50` rows from the last page. -/
theorem competitor_rows_per_page :
    ∀ (fetch : String → Except String Page) (year div : Int) (info : Info)
      (page : Nat) (resp : Page),
      games_json_dump fetch (.int year) (.int div) (.int page) = .ok resp →
      (∀ idx, idx < competitorsOnPage info.totalPages info.totalCompetitors page →
        (extractCompetitor resp idx).isOk = true) →
      (processPage fetch year div info page).length =
        if page < info.totalPages then 50 else info.totalCompetitors % 50 := by
  intro fetch year div info page resp hf hext
  unfold processPage
  rw [hf]
  rw [collectIdx_length (extractCompetitor resp)
    (competitorsOnPage info.totalPages info.totalCompetitors page) 0
    (fun i hi => by simpa using hext i hi)]
  rfl

/-- C3 witness: a 3-page, 110-competitor division consumes 50, 50, 10 rows
on pages 1, 2, 3. -/
theorem competitor_rows_per_page_witness :
    (processPage fetchC3 2022 1 infoC3 1).length = 50 ∧
    (processPage fetchC3 2022 1 infoC3 2).length = 50 ∧
    (processPage fetchC3 2022 1 infoC3 3).length = 10 := by
  refine ⟨?_, ?_, ?_⟩
  · have h := competitor_rows_per_page fetchC3 2022 1 infoC3 1 pageC3 rfl (by decide)
    simpa using h
  · have h := competitor_rows_per_page fetchC3 2022 1 infoC3 2 pageC3 rfl (by decide)
    simpa using h
  · have h := competitor_rows_per_page fetchC3 2022 1 infoC3 3 pageC3 rfl (by decide)
    simpa using h

/-- C1: for every fetcher behavior, year and division, `games_info_scores`
reflects the top-level catch: an error anywhere in the body yields the
empty table, a successful body yields its table — the caller never sees an
exception. -/
theorem games_info_scores_fault_soft :
    ∀ (fetch : String → Except String Page) (year division : Int),
      (∀ e, games_info_scores_body fetch year division = .error e →
        games_info_scores fetch year division = []) ∧
      (∀ t, games_info_scores_body fetch year division = .ok t →
        games_info_scores fetch year division = t) := by
  intro fetch year division
  constructor
  · intro e he
    unfold games_info_scores
    rw [he]
  · intro t ht
    unfold games_info_scores
    rw [ht]

/-- C1 witness: a fetcher whose rows all lack the `scores` key drives the
body into an internal failure (the `rank` column lookup on the empty
frame), and the top-level call returns the empty table. -/
theorem games_info_scores_fault_soft_witness :
    games_info_scores_body fetchC1 2022 1 = .error (.keyError "rank") ∧
    games_info_scores fetchC1 2022 1 = [] :=
  ⟨by decide,
   (games_info_scores_fault_soft fetchC1 2022 1).1 (.keyError "rank") (by decide)⟩

/-- Helper: the year loop of `games_info_scores_multiple` never fails — its
body cannot raise, so the (itself faulty) handler is unreachable — and it
returns the concatenation of every year's (possibly empty) retagged
table. -/
theorem scoresMultipleLoop_eq (fetch : String → Except String Page) (d : Int) :
    ∀ years : List Int, scoresMultipleLoop fetch d years =
      .ok (years.flatMap (fun y => (games_info_scores fetch y d).map (setYear y))) := by
  intro years
  induction years with
  | nil => rfl
  | cons y ys ih =>
    simp only [scoresMultipleLoop, scoresYearBody, ih, List.flatMap_cons]
    rfl

/-- C9 counterexample: with a fetcher whose 2021 response is missing the
required `pagination` key, the failure does arise inside the year loop
(`games_info_scores_body` fails with that `KeyError`), yet
`games_info_scores_multiple` over 2021-2022 does not propagate it: it
returns normally with the 2022 rows. -/
theorem scores_multiple_propagation_counterexample :
    games_info_scores_body fetchC9 2021 1 = .error (.keyError "pagination") ∧
    games_info_scores_multiple fetchC9 (.int 2021) (.int 2022) (.int 1) =
      .ok [⟨.int 1, none, "100 reps", 201, 2022, 1, some (100 * 4536)⟩] := by
  constructor
  · decide
  · decide

/-- C9 amended: `games_info_scores_multiple` propagates nothing from the
year loop — a required-key-missing failure is absorbed inside
`games_info_scores` (empty table for that year) and every year of the
range is processed: the result is always `ok` and equals the concatenation
of the per-year retagged tables. -/
theorem scores_multiple_absorbs_failures :
    ∀ (fetch : String → Except String Page) (yearFrom yearToo division : Int),
      games_info_scores_multiple fetch (.int yearFrom) (.int yearToo) (.int division) =
        .ok ((yearRange yearFrom yearToo).flatMap
          (fun y => (games_info_scores fetch y division).map (setYear y))) := by
  intro fetch yf yt d
  exact scoresMultipleLoop_eq fetch d (yearRange yf yt)

/-- Helper: every row produced by the inner division loop of
`games_info_multiple` for year `y` is tagged with year `y`. -/
theorem runDivs_year (fetch : String → Except String Page) (y : Int) :
    ∀ (divs : List Int) (r : InfoRow), r ∈ runDivs fetch y divs → r.year = y := by
  intro divs
  induction divs with
  | nil => intro r h; simp [runDivs] at h
  | cons d rest ih =>
    intro r h
    cases hg : games_info fetch y d with
    | error e => simp [runDivs, hg] at h
    | ok i =>
      simp only [runDivs, hg] at h
      rcases List.mem_cons.mp h with h1 | h2
      · rw [h1]
      · exact ih r h2

/-- C5 counterexample: with a fetcher that fails only for (2020, division 1)
and would succeed for (2020, division 2), `games_info_multiple` over 2020
with the sentinel division 0 returns no row at all — the division-2 row of
the same year is lost, not just the failing combination. -/
theorem info_multiple_skip_granularity_counterexample :
    games_info fetchC5 2020 1 = .error (.network "boom") ∧
    games_info fetchC5 2020 2 = .ok ⟨5, 1, 1, 2⟩ ∧
    games_info_multiple fetchC5 2020 2020 0 = [] := by
  refine ⟨by decide, by decide, by decide⟩

/-- C5 amended: in `games_info_multiple` the catch sits around the whole
inner division loop, so a failure for division 1 of year `y0` skips the
remainder of year `y0` including division 2 (no row of that year appears),
while processing continues with the other years: a year `y1` whose two
divisions both succeed contributes both rows. -/
theorem info_multiple_skip_granularity :
    ∀ (fetch : String → Except String Page) (yearFrom yearToo y0 y1 : Int)
      (i1 i2 : Info) (e : Err),
      games_info fetch y0 1 = .error e →
      games_info fetch y1 1 = .ok i1 →
      games_info fetch y1 2 = .ok i2 →
      y1 ∈ yearRange yearFrom yearToo →
      (∀ r ∈ games_info_multiple fetch yearFrom yearToo 0, r.year ≠ y0) ∧
      (⟨i1, y1, 1⟩ : InfoRow) ∈ games_info_multiple fetch yearFrom yearToo 0 ∧
      (⟨i2, y1, 2⟩ : InfoRow) ∈ games_info_multiple fetch yearFrom yearToo 0 := by
  intro fetch yearFrom yearToo y0 y1 i1 i2 e he h1 h2 hy1
  have hrun : runDivs fetch y1 (divisionValueMultiple 0) = [⟨i1, y1, 1⟩, ⟨i2, y1, 2⟩] := by
    have h0 : divisionValueMultiple 0 = [1, 2] := rfl
    rw [h0]
    simp [runDivs, h1, h2]
  refine ⟨?_, ?_, ?_⟩
  · intro r hr
    unfold games_info_multiple convert_object_columns_to_numeric_info at hr
    rcases List.mem_flatMap.mp hr with ⟨y, hy, hmem⟩
    have hyear := runDivs_year fetch y (divisionValueMultiple 0) r hmem
    intro hcon
    rw [hcon] at hyear
    rw [← hyear] at hmem
    have h0 : divisionValueMultiple 0 = [1, 2] := rfl
    rw [h0] at hmem
    simp [runDivs, he] at hmem
  · unfold games_info_multiple convert_object_columns_to_numeric_info
    exact List.mem_flatMap.mpr ⟨y1, hy1, by rw [hrun]; simp⟩
  · unfold games_info_multiple convert_object_columns_to_numeric_info
    exact List.mem_flatMap.mpr ⟨y1, hy1, by rw [hrun]; simp⟩

/-- C5 amended witness: with the fetcher failing only at (2020, division 1),
the 2020-2021 metadata table has no 2020 row but keeps both 2021 rows. -/
theorem info_multiple_skip_granularity_witness :
    (∀ r ∈ games_info_multiple fetchC5 2020 2021 0, r.year ≠ 2020) ∧
    (⟨⟨5, 1, 1, 2⟩, 2021, 1⟩ : InfoRow) ∈ games_info_multiple fetchC5 2020 2021 0 ∧
    (⟨⟨5, 1, 1, 2⟩, 2021, 2⟩ : InfoRow) ∈ games_info_multiple fetchC5 2020 2021 0 :=
  info_multiple_skip_granularity fetchC5 2020 2021 2020 2021 ⟨5, 1, 1, 2⟩ ⟨5, 1, 1, 2⟩
    (.network "boom") (by decide) (by decide) (by decide) (by decide)

/-- C7: after the score post-processing, on a table whose raw ranks are all
either a sentinel or a digit string, every sentinel row gets the sentinel
copied into `rankReason` and its rank reset to the integer 0, and every
numeric-rank row keeps its parsed rank with a null `rankReason`. -/
theorem score_rank_recoding :
    ∀ raw : List ScoreRaw,
      (∀ r ∈ raw, r.rank ∈ rankSentinels ∨ (parseNat? r.rank).isSome = true) →
      postScores raw = raw.map (fun r =>
        { rank := if r.rank ∈ rankSentinels then Cell.int 0
            else Cell.int ((parseNat? r.rank).getD 0),
          rankReason := if r.rank ∈ rankSentinels then some r.rank else none,
          scoreDisplay := r.scoreDisplay, competitorId := r.competitorId,
          year := r.year, division := r.division,
          scoreIsWeightInKg := lb_to_kg r.scoreDisplay }) := by
  intro raw h
  unfold postScores coerceRankColumn
  have hall : (raw.map recodeRank).all (fun r => cellNumeric r.rank) = true := by
    rw [List.all_eq_true]
    intro x hx
    rcases List.mem_map.mp hx with ⟨r, hr, rfl⟩
    rcases h r hr with hs | hn
    · simp [recodeRank, hs, cellNumeric]
    · by_cases hs : r.rank ∈ rankSentinels
      · simp [recodeRank, hs, cellNumeric]
      · simp [recodeRank, hs, cellNumeric, hn]
  rw [if_pos hall, List.map_map, List.map_map]
  apply List.map_congr_left
  intro r hr
  by_cases hs : r.rank ∈ rankSentinels
  · simp [Function.comp, recodeRank, hs, cellForce]
  · simp [Function.comp, recodeRank, hs, cellForce]

/-- C7 witness: a `CUT` row becomes rank 0 with `rankReason = "CUT"`, and a
rank-"5" row becomes rank 5 with a null `rankReason`. -/
theorem score_rank_recoding_witness :
    postScores [rawCut, rawFive] =
      [⟨Cell.int 0, some "CUT", "no weight", 11, 2022, 1, none⟩,
       ⟨Cell.int 5, none, "205 lb", 12, 2022, 1, some (205 * 4536)⟩] :=
  (score_rank_recoding [rawCut, rawFive] (by decide)).trans (by decide)

/-- Helper: scanning a digit-free suffix with an empty accumulator yields
no further runs. -/
theorem digitRunsAux_nodigit :
    ∀ ss : List Char, (∀ c ∈ ss, ¬ c.isDigit = true) → digitRunsAux ss [] = [] := by
  intro ss
  induction ss with
  | nil => intro _; rfl
  | cons c cs ih =>
    intro h
    have hc : ¬ c.isDigit = true := h c (List.mem_cons_self c cs)
    simp [digitRunsAux, hc, ih (fun x hx => h x (List.mem_cons_of_mem c hx))]

/-- Helper: scanning a digit block accumulates it (reversed) onto the
accumulator. -/
theorem digitRunsAux_digits :
    ∀ (ds rest acc : List Char), (∀ c ∈ ds, c.isDigit = true) →
      digitRunsAux (ds ++ rest) acc = digitRunsAux rest (ds.reverse ++ acc) := by
  intro ds
  induction ds with
  | nil => intro rest acc _; simp
  | cons d ds2 ih =>
    intro rest acc h
    have hd : d.isDigit = true := h d (List.mem_cons_self d ds2)
    simp only [List.cons_append, digitRunsAux, hd, if_pos, List.append_eq]
    rw [ih rest (d :: acc) (fun c hc => h c (List.mem_cons_of_mem d hc))]
    congr 1
    simp

/-- Helper: on a string made of a nonempty digit block followed by a
digit-free suffix, `re.findall(r'\d+', ·)` returns exactly the digit
block — the trailing tie marker is stripped, the digits kept. -/
theorem digitRuns_strip (ds ss : List Char) (hne : ds ≠ [])
    (hd : ∀ c ∈ ds, c.isDigit = true) (hs : ∀ c ∈ ss, ¬ c.isDigit = true) :
    digitRuns (String.mk (ds ++ ss)) = [String.mk ds] := by
  show digitRunsAux (ds ++ ss) [] = [String.mk ds]
  rw [digitRunsAux_digits ds ss [] hd, List.append_nil]
  have hrev : ds.reverse.isEmpty = false := by
    rw [List.isEmpty_eq_false]
    simpa using hne
  cases ss with
  | nil => simp [digitRunsAux, hrev]
  | cons c ss2 =>
    have hc : ¬ c.isDigit = true := hs c (List.mem_cons_self c ss2)
    simp [digitRunsAux, hc, hrev,
      digitRunsAux_nodigit ss2 (fun x hx => hs x (List.mem_cons_of_mem c hx))]

/-- Helper: a nonempty all-digit character block parses to an integer. -/
theorem digitsToNat?_isSome (ds : List Char) (hne : ds ≠ [])
    (hd : ∀ c ∈ ds, c.isDigit = true) : ∃ n, digitsToNat? ds = some n := by
  unfold digitsToNat?
  rw [if_neg (by simpa [List.isEmpty_iff] using hne),
    if_pos (List.all_eq_true.mpr hd)]
  exact ⟨_, rfl⟩

/-- C8: in the competitor post-processing, an `overallRank` consisting of
digits followed by a digit-free tie marker has the marker stripped
(`digitRuns` keeps exactly the digit block), the digits parse to an
integer, and the returned row carries that integer as `overallRank`. -/
theorem competitor_tie_marker_stripping :
    ∀ (r : CompetitorRaw) (ds ss : List Char) (a : Nat),
      r.overallRank = String.mk (ds ++ ss) →
      ds ≠ [] → (∀ c ∈ ds, c.isDigit = true) → (∀ c ∈ ss, ¬ c.isDigit = true) →
      parseNat? r.entrant.age = some a →
      digitRuns r.overallRank = [String.mk ds] ∧
      ∃ m row, digitsToNat? ds = some m ∧
        postCompetitorRow r = .ok row ∧ row.overallRank = m := by
  intro r ds ss a hr hne hd hs ha
  have hdr : digitRuns r.overallRank = [String.mk ds] := by
    rw [hr]
    exact digitRuns_strip ds ss hne hd hs
  obtain ⟨m, hm⟩ := digitsToNat?_isSome ds hne hd
  have hp : parseNat? (String.mk ds) = digitsToNat? ds := rfl
  refine ⟨hdr, m,
    { competitorId := r.entrant.competitorId, name := r.entrant.name, age := a,
      overallScore := r.overallScore, overallRank := m,
      heightInCm := inch_to_cm r.entrant.height,
      weightInKg := weightKgOfRuns (digitRuns r.entrant.weight) }, hm, ?_, rfl⟩
  unfold postCompetitorRow
  rw [hdr]
  simp [astypeIntCell, astypeIntStr, hp, hm, ha]
  rfl

/-- C8 witness: a raw `overallRank` of `"5T"` has its tie marker stripped
and becomes the integer 5 in the post-processed row. -/
theorem competitor_tie_marker_stripping_witness :
    (digitRuns rawFull.overallRank = [String.mk ['5']] ∧
      ∃ m row, digitsToNat? ['5'] = some m ∧
        postCompetitorRow rawFull = .ok row ∧ row.overallRank = m) ∧
    postCompetitorRow rawFull =
      .ok ⟨101, "Ann", 30, "600", 5, some (70 * 254), some (205 * 4536)⟩ :=
  ⟨competitor_tie_marker_stripping rawFull ['5'] ['T'] 30 (by decide) (by decide)
      (by decide) (by decide) (by decide), by decide⟩

/-- Helper: when every attempted index succeeds, each index's value is in
the `collectIdx` result. -/
theorem collectIdx_mem_of_allOk {α : Type} (f : Nat → Except Err α) :
    ∀ (n start : Nat), (∀ i, i < n → (f (start + i)).isOk = true) →
    ∀ i, i < n → ∀ r, f (start + i) = .ok r → r ∈ collectIdx f start n := by
  intro n
  induction n with
  | zero => intro start _ i hi; omega
  | succ m ih =>
    intro start h i hi r hr
    have h0 := h 0 (Nat.succ_pos m)
    simp only [Nat.add_zero] at h0
    cases hf : f start with
    | error e => rw [hf] at h0; simp [Except.isOk, Except.toBool] at h0
    | ok a =>
      simp only [collectIdx, hf]
      cases i with
      | zero =>
        simp only [Nat.add_zero] at hr
        rw [hf] at hr
        exact List.mem_cons.mpr (Or.inl (Except.ok.inj hr).symm)
      | succ j =>
        refine List.mem_cons.mpr (Or.inr ?_)
        refine ih (start + 1) (fun k hk => ?_) j (by omega) r ?_
        · have hx := h (k + 1) (by omega)
          rwa [show start + (k + 1) = start + 1 + k by omega] at hx
        · rwa [show start + 1 + j = start + (j + 1) by omega]

/-- Helper: every row in a `collectIdx` result is the value of some
attempted index. -/
theorem mem_collectIdx {α : Type} (f : Nat → Except Err α) :
    ∀ (n start : Nat) (r : α), r ∈ collectIdx f start n →
      ∃ i, i < n ∧ f (start + i) = .ok r := by
  intro n
  induction n with
  | zero => intro start r h; simp [collectIdx] at h
  | succ m ih =>
    intro start r h
    cases hf : f start with
    | error e => rw [collectIdx, hf] at h; simp at h
    | ok a =>
      rw [collectIdx, hf] at h
      rcases List.mem_cons.mp h with h1 | h2
      · exact ⟨0, Nat.succ_pos m, by rw [Nat.add_zero, hf, h1]⟩
      · obtain ⟨j, hj, hfj⟩ := ih (start + 1) r h2
        exact ⟨j + 1, by omega, by rwa [show start + (j + 1) = start + 1 + j by omega]⟩

/-- Helper: `mapM` over a list on which `f` succeeds pointwise succeeds,
and the image of every element is in the result. -/
theorem mapM_ok_of_exists {α β : Type} (f : α → Except Err β) :
    ∀ l : List α, (∀ x ∈ l, ∃ y, f x = .ok y) →
      ∃ ys, l.mapM f = .ok ys ∧ ∀ x ∈ l, ∀ y, f x = .ok y → y ∈ ys := by
  intro l
  induction l with
  | nil => intro _; exact ⟨[], rfl, by simp⟩
  | cons a t ih =>
    intro h
    obtain ⟨y0, hy0⟩ := h a (List.mem_cons_self a t)
    obtain ⟨ys, hys, hmem⟩ := ih (fun x hx => h x (List.mem_cons_of_mem a hx))
    refine ⟨y0 :: ys, ?_, ?_⟩
    · rw [List.mapM_cons, hy0, hys]
      rfl
    · intro x hx y hy
      rcases List.mem_cons.mp hx with h1 | h2
      · rw [h1] at hy
        rw [hy0] at hy
        exact List.mem_cons.mpr (Or.inl (Except.ok.inj hy).symm)
      · exact List.mem_cons.mpr (Or.inr (hmem x h2 y hy))

/-- C2: in `games_info_competitors`, whatever goes wrong on one page
(d0, p0) — a failed fetch or a processing failure — is contained: provided
the metadata calls succeed, every other page of every expanded division
fetches and extracts cleanly, whatever rows the bad page did leave behind
still post-process, and at least one good page is nonempty, the function
returns `ok` (no exception escapes) and the post-processed row of every
index of every other page is present in the returned table. -/
theorem competitor_fault_isolation :
    ∀ (fetch : String → Except String Page) (year division d0 : Int) (p0 : Nat)
      (infoF : Int → Info) (respF : Int → Nat → Page),
      (∀ d ∈ divisionValueCompetitors division, games_info fetch year d = .ok (infoF d)) →
      (∀ d ∈ divisionValueCompetitors division,
        ∀ p ∈ pageRange (infoF d).totalPages, ¬(d = d0 ∧ p = p0) →
          games_json_dump fetch (.int year) (.int d) (.int p) = .ok (respF d p) ∧
          ∀ idx, idx < competitorsOnPage (infoF d).totalPages (infoF d).totalCompetitors p →
            ∃ r v, extractCompetitor (respF d p) idx = .ok r ∧ postCompetitorRow r = .ok v) →
      (∀ r ∈ processPage fetch year d0 (infoF d0) p0, ∃ v, postCompetitorRow r = .ok v) →
      (∃ d ∈ divisionValueCompetitors division, ∃ p ∈ pageRange (infoF d).totalPages,
        ¬(d = d0 ∧ p = p0) ∧
        0 < competitorsOnPage (infoF d).totalPages (infoF d).totalCompetitors p) →
      ∃ T, games_info_competitors fetch year division = .ok T ∧
        ∀ d ∈ divisionValueCompetitors division,
          ∀ p ∈ pageRange (infoF d).totalPages, ¬(d = d0 ∧ p = p0) →
            ∀ idx, idx < competitorsOnPage (infoF d).totalPages (infoF d).totalCompetitors p →
              ∃ r v, extractCompetitor (respF d p) idx = .ok r ∧
                postCompetitorRow r = .ok v ∧ v ∈ T := by
  intro fetch year division d0 p0 infoF respF hinfo hgood hbad hnon
  have hpd : ∀ d ∈ divisionValueCompetitors division,
      processDiv fetch year d =
        (pageRange (infoF d).totalPages).flatMap (processPage fetch year d (infoF d)) := by
    intro d hd
    unfold processDiv
    rw [hinfo d hd]
  have hok : ∀ d ∈ divisionValueCompetitors division,
      ∀ p ∈ pageRange (infoF d).totalPages, ¬(d = d0 ∧ p = p0) →
      ∀ i, i < competitorsOnPage (infoF d).totalPages (infoF d).totalCompetitors p →
      (extractCompetitor (respF d p) (0 + i)).isOk = true := by
    intro d hd p hp hc i hi
    obtain ⟨r, v, hr, _⟩ := (hgood d hd p hp hc).2 i hi
    rw [Nat.zero_add, hr]
    rfl
  have hpp : ∀ d ∈ divisionValueCompetitors division,
      ∀ p ∈ pageRange (infoF d).totalPages, ¬(d = d0 ∧ p = p0) →
      processPage fetch year d (infoF d) p =
        collectIdx (extractCompetitor (respF d p)) 0
          (competitorsOnPage (infoF d).totalPages (infoF d).totalCompetitors p) := by
    intro d hd p hp hc
    unfold processPage
    rw [(hgood d hd p hp hc).1]
  have hmemPage : ∀ d ∈ divisionValueCompetitors division,
      ∀ p ∈ pageRange (infoF d).totalPages, ¬(d = d0 ∧ p = p0) →
      ∀ idx, idx < competitorsOnPage (infoF d).totalPages (infoF d).totalCompetitors p →
      ∀ r, extractCompetitor (respF d p) idx = .ok r →
        r ∈ processPage fetch year d (infoF d) p := by
    intro d hd p hp hc idx hidx r hr
    rw [hpp d hd p hp hc]
    exact collectIdx_mem_of_allOk (extractCompetitor (respF d p)) _ 0
      (hok d hd p hp hc) idx hidx r (by rw [Nat.zero_add]; exact hr)
  have hmemRaw : ∀ d ∈ divisionValueCompetitors division,
      ∀ p ∈ pageRange (infoF d).totalPages,
      ∀ r, r ∈ processPage fetch year d (infoF d) p →
        r ∈ (divisionValueCompetitors division).flatMap (processDiv fetch year) := by
    intro d hd p hp r hrp
    refine List.mem_flatMap.mpr ⟨d, hd, ?_⟩
    rw [hpd d hd]
    exact List.mem_flatMap.mpr ⟨p, hp, hrp⟩
  have hraws : ∀ x ∈ (divisionValueCompetitors division).flatMap (processDiv fetch year),
      ∃ v, postCompetitorRow x = .ok v := by
    intro x hx
    rcases List.mem_flatMap.mp hx with ⟨d, hd, hxd⟩
    rw [hpd d hd] at hxd
    rcases List.mem_flatMap.mp hxd with ⟨p, hp, hxp⟩
    by_cases hc : d = d0 ∧ p = p0
    · exact hbad x (by rwa [hc.1, hc.2] at hxp)
    · rw [hpp d hd p hp hc] at hxp
      obtain ⟨i, hi, hfi⟩ := mem_collectIdx (extractCompetitor (respF d p)) _ 0 x hxp
      rw [Nat.zero_add] at hfi
      obtain ⟨r, v, hr, hv⟩ := (hgood d hd p hp hc).2 i hi
      have hxr : r = x := Except.ok.inj (hr.symm.trans hfi)
      exact ⟨v, hxr ▸ hv⟩
  obtain ⟨T, hT, hTmem⟩ :=
    mapM_ok_of_exists postCompetitorRow
      ((divisionValueCompetitors division).flatMap (processDiv fetch year)) hraws
  have hne : ((divisionValueCompetitors division).flatMap
      (processDiv fetch year)).isEmpty = false := by
    obtain ⟨d1, hd1, p1, hp1, hc1, hn1⟩ := hnon
    obtain ⟨r, v, hr, _⟩ := (hgood d1 hd1 p1 hp1 hc1).2 0 hn1
    have hm : r ∈ (divisionValueCompetitors division).flatMap (processDiv fetch year) :=
      hmemRaw d1 hd1 p1 hp1 r (hmemPage d1 hd1 p1 hp1 hc1 0 hn1 r hr)
    rw [List.isEmpty_eq_false]
    exact List.ne_nil_of_mem hm
  refine ⟨T, ?_, ?_⟩
  · simp only [games_info_competitors]
    rw [if_neg (by rw [hne]; simp)]
    exact hT
  · intro d hd p hp hc idx hidx
    obtain ⟨r, v, hr, hv⟩ := (hgood d hd p hp hc).2 idx hidx
    refine ⟨r, v, hr, hv, ?_⟩
    exact hTmem r
      (hmemRaw d hd p hp r (hmemPage d hd p hp hc idx hidx r hr)) v hv

/-- C2 witness: with page 2 of a 2-page division failing transiently and
page 1 serving 50 well-formed rows, `games_info_competitors` returns `ok`
and every page-1 row is present in the table. -/
theorem competitor_fault_isolation_witness :
    ∃ T, games_info_competitors fetchC2 2022 1 = .ok T ∧
      ∀ d ∈ divisionValueCompetitors 1, ∀ p ∈ pageRange 2, ¬(d = 1 ∧ p = 2) →
        ∀ idx, idx < competitorsOnPage 2 51 p →
          ∃ r v, extractCompetitor pageC2 idx = .ok r ∧
            postCompetitorRow r = .ok v ∧ v ∈ T := by
  have hext : ∀ idx, idx < competitorsOnPage 2 51 1 →
      extractCompetitor pageC2 idx = .ok rawFull := by decide
  have hpost : postCompetitorRow rawFull = .ok rowFullPost := by decide
  refine competitor_fault_isolation fetchC2 2022 1 1 2
    (fun _ => ⟨7, 2, 51, 0⟩) (fun _ _ => pageC2) (by decide) ?_ ?_ ?_
  · intro d hd p hp hc
    have hd2 : d ∈ ([1] : List Int) := hd
    simp only [List.mem_singleton] at hd2
    subst hd2
    have hp2 : p ∈ ([1, 2] : List Nat) := hp
    simp only [List.mem_cons, List.mem_singleton] at hp2
    rcases hp2 with hp1 | hp1 | hfalse
    · subst hp1
      exact ⟨by decide, fun idx hidx => ⟨rawFull, rowFullPost, hext idx hidx, hpost⟩⟩
    · exact absurd ⟨rfl, hp1⟩ hc
    · cases hfalse
  · intro r hr
    rw [show processPage fetchC2 2022 1 ⟨7, 2, 51, 0⟩ 2 = [] from by decide] at hr
    exact absurd hr (List.not_mem_nil r)
  · exact ⟨1, by decide, 1, by decide, by decide, by decide⟩

end CrossfitGames
